import Mathlib

/-!
Verification of the CRUD resource-lifecycle contract implemented by the
repository's demo files.  The central implementation is `main25.py`
(a paginated/filtered item store with soft delete); the other embedded
stores are `main2.py` (a plain dictionary with `max(keys)+1` id
assignment), `main18.py` (a counter-based order store), `main20.py`
(a user store with a unique email), `main24.py` (a list-backed item
store with a full replace), and `main26.py` (a product store whose
partial update accepts an empty patch).

Timestamps (`datetime.utcnow()`) are modelled as a `now : Nat` argument
passed to every operation that reads the clock.  Each stateful handler
becomes a pure function from the store state to the new state paired
with an `Except`-style result; an `HTTPException` raised before any
commit leaves the state unchanged, mirroring the session rollback.
-/

namespace Main25

/-- Error taxonomy of the store: 404 not found, 400 validation failure
(with its `detail` string), 400 unique-name conflict. -/
inductive Err where
  | notFound : Err
  | validation : String → Err
  | conflict : Err
deriving Repr, DecidableEq

/-- One row of the `items` table of `main25.py`. -/
structure Item where
  id : Nat
  name : String
  description : Option String
  price : Option String
  category : Option String
  is_active : Bool
  created_at : Nat
  updated_at : Nat
deriving Repr, DecidableEq

/-- Request body of `POST /items/` (`ItemCreate` in `main25.py`). -/
structure ItemCreate where
  name : String
  description : Option String := none
  price : Option String := none
  category : Option String := none
  is_active : Bool := true
deriving Repr, DecidableEq

/-- The `price` pattern of `main25.py`: digits, optionally a dot followed
by one or two digits. -/
def priceOk (s : String) : Bool :=
  let p := s.toList.span (·.isDigit)
  decide (p.1 ≠ []) &&
    (decide (p.2 = []) ||
      (decide (p.2.head? = some '.') && (p.2.drop 1).all (·.isDigit) &&
        decide (1 ≤ (p.2.drop 1).length) && decide ((p.2.drop 1).length ≤ 2)))

/-- Pydantic validation of `ItemCreate` (field constraints of `ItemBase`). -/
def validItemCreate (i : ItemCreate) : Bool :=
  decide (1 ≤ i.name.length) && decide (i.name.length ≤ 100) &&
    (match i.description with | none => true | some d => decide (d.length ≤ 1000)) &&
    (match i.price with | none => true | some p => priceOk p) &&
    (match i.category with | none => true | some c => decide (c.length ≤ 50))

/-- `create_item` of `main25.py`: pydantic validation, then a name-conflict
check against every row (active or not), then insert.  The new id models
SQLite rowid assignment, `max(existing ids, default 0) + 1`. -/
def createItem (now : Nat) (inp : ItemCreate) (db : List Item) :
    List Item × Except Err Item :=
  if validItemCreate inp = false then
    (db, .error (.validation "Invalid input"))
  else if db.any (fun it => it.name == inp.name) then
    (db, .error .conflict)
  else
    let newId := (db.map (·.id)).foldr max 0 + 1
    let it : Item :=
      { id := newId, name := inp.name, description := inp.description,
        price := inp.price, category := inp.category,
        is_active := inp.is_active, created_at := now, updated_at := now }
    (db ++ [it], .ok it)

/-- `read_item` of `main25.py`: first row with the given id, no
activity filter. -/
def readItem (id : Nat) (db : List Item) : List Item × Except Err Item :=
  match db.find? (fun it => it.id == id) with
  | none => (db, .error .notFound)
  | some it => (db, .ok it)

/-- SQL `LIKE '%needle%'` with SQLite's ASCII case folding. -/
def likeMatch (needle hay : String) : Bool :=
  decide (needle.toLower.toList <:+: hay.toLower.toList)

/-- The `search` predicate of `read_items`: match in `name` or in
`description` (a NULL description never matches). -/
def searchMatch (s : String) (it : Item) : Bool :=
  likeMatch s it.name ||
    (match it.description with | none => false | some d => likeMatch s d)

/-- The query parameters of `GET /items/` that select rows.  The empty
string is falsy in Python, so `category=""` and `search=""` disable
their filters exactly as `if category:` / `if search:` do. -/
structure ListFilter where
  category : Option String := none
  active_only : Bool := true
  search : Option String := none
deriving Repr, DecidableEq

/-- Row predicate of the `read_items` query: all supplied filters ANDed. -/
def keepItem (f : ListFilter) (it : Item) : Bool :=
  (!f.active_only || it.is_active) &&
    (match f.category with
     | none => true
     | some c => decide (c = "") || it.category == some c) &&
    (match f.search with
     | none => true
     | some s => decide (s = "") || searchMatch s it)

/-- Insert into a list kept in descending `created_at` order (the
deterministic model of `ORDER BY created_at DESC`). -/
def insertDesc (x : Item) : List Item → List Item
  | [] => [x]
  | y :: ys =>
    if y.created_at < x.created_at then x :: y :: ys else y :: insertDesc x ys

/-- Sort by `created_at`, most recent first. -/
def sortDesc (l : List Item) : List Item := l.foldr insertDesc []

/-- Response of `GET /items/` (`ItemsListResponse`). -/
structure ItemsList where
  items : List Item
  total : Nat
  page : Nat
  per_page : Nat
  total_pages : Nat
deriving Repr, DecidableEq

/-- `read_items` of `main25.py`: filter, count before slicing, order by
`created_at` descending, then `OFFSET (page-1)*per_page LIMIT per_page`;
`total_pages = (total + per_page - 1) / per_page`. -/
def readItems (page per_page : Nat) (f : ListFilter) (db : List Item) :
    ItemsList :=
  let filtered := db.filter (keepItem f)
  let total := filtered.length
  let items := ((sortDesc filtered).drop ((page - 1) * per_page)).take per_page
  { items := items, total := total, page := page, per_page := per_page,
    total_pages := (total + per_page - 1) / per_page }

/-- Request body of `PUT /items/{id}` (`ItemUpdate`): every field
optional.  `none` means the client omitted the field (pydantic
`exclude_unset`); for the nullable columns an inner `Option` records an
explicit `null`, so `some none` sets the column to NULL. -/
structure ItemUpdate where
  name : Option String := none
  description : Option (Option String) := none
  price : Option (Option String) := none
  category : Option (Option String) := none
  is_active : Option Bool := none
deriving Repr, DecidableEq

/-- Pydantic validation of `ItemUpdate`: constraints apply only to
supplied non-null values. -/
def validItemUpdate (p : ItemUpdate) : Bool :=
  (match p.name with
   | none => true
   | some n => decide (1 ≤ n.length) && decide (n.length ≤ 100)) &&
    (match p.description with
     | some (some d) => decide (d.length ≤ 1000) | _ => true) &&
    (match p.price with
     | some (some pr) => priceOk pr | _ => true) &&
    (match p.category with
     | some (some c) => decide (c.length ≤ 50) | _ => true)

/-- `update_data` is nonempty: at least one field was supplied. -/
def patchNonempty (p : ItemUpdate) : Bool :=
  p.name.isSome || p.description.isSome || p.price.isSome ||
    p.category.isSome || p.is_active.isSome

/-- The `setattr` loop plus `updated_at = utcnow()`: supplied fields
overwrite, omitted fields are untouched. -/
def applyPatch (p : ItemUpdate) (now : Nat) (it : Item) : Item :=
  { it with
    name := p.name.getD it.name,
    description := p.description.getD it.description,
    price := p.price.getD it.price,
    category := p.category.getD it.category,
    is_active := p.is_active.getD it.is_active,
    updated_at := now }

/-- Replace the first row with the given id (the ORM mutates the fetched
row in place, keeping its position). -/
def replaceFirst (id : Nat) (new : Item) : List Item → List Item
  | [] => []
  | y :: ys => if y.id == id then new :: ys else y :: replaceFirst id new ys

/-- `update_item` of `main25.py`: pydantic validation (rejected before
the handler runs), 404 on a missing id, 400 on an empty patch, 400 on a
name conflict with a different id, otherwise apply the patch. -/
def updateItem (now : Nat) (id : Nat) (p : ItemUpdate) (db : List Item) :
    List Item × Except Err Item :=
  if validItemUpdate p = false then
    (db, .error (.validation "Invalid input"))
  else
    match db.find? (fun it => it.id == id) with
    | none => (db, .error .notFound)
    | some it =>
      if patchNonempty p = false then
        (db, .error (.validation "No fields to update"))
      else
        match p.name with
        | some n =>
          if db.any (fun o => o.name == n && !(o.id == id)) then
            (db, .error .conflict)
          else
            let it2 := applyPatch p now it
            (replaceFirst id it2 db, .ok it2)
        | none =>
          let it2 := applyPatch p now it
          (replaceFirst id it2 db, .ok it2)

/-- `delete_item` of `main25.py` (the default `DELETE` route): soft
delete, `is_active := false` and `updated_at` refreshed. -/
def deleteItem (now : Nat) (id : Nat) (db : List Item) :
    List Item × Except Err Unit :=
  match db.find? (fun it => it.id == id) with
  | none => (db, .error .notFound)
  | some it =>
    let it2 := { it with is_active := false, updated_at := now }
    (replaceFirst id it2 db, .ok ())

/-- Remove the first row with the given id. -/
def eraseFirst (id : Nat) : List Item → List Item
  | [] => []
  | y :: ys => if y.id == id then ys else y :: eraseFirst id ys

/-- `delete_item_permanent` of `main25.py`: hard delete. -/
def deleteItemPermanent (id : Nat) (db : List Item) :
    List Item × Except Err Unit :=
  match db.find? (fun it => it.id == id) with
  | none => (db, .error .notFound)
  | some _ => (eraseFirst id db, .ok ())

/-- One mutating request against the `main25.py` store. -/
inductive Op where
  | create (now : Nat) (inp : ItemCreate)
  | update (now : Nat) (id : Nat) (p : ItemUpdate)
  | softDelete (now : Nat) (id : Nat)
  | hardDelete (id : Nat)

/-- State transition of one request. -/
def applyOp (db : List Item) : Op → List Item
  | .create now inp => (createItem now inp db).1
  | .update now id p => (updateItem now id p db).1
  | .softDelete now id => (deleteItem now id db).1
  | .hardDelete id => (deleteItemPermanent id db).1

/-- States reachable from the empty store. -/
def runOps (ops : List Op) : List Item := ops.foldl applyOp []

end Main25

namespace Main2

/-- The in-memory dictionary of `main2.py`, as an association list with
the keys unique; values are the opaque item payloads. -/
abbrev Store := List (Nat × String)

/-- Initial store of `main2.py`: `{1:"ammu", 2:"ammulu"}`. -/
def init : Store := [(1, "ammu"), (2, "ammulu")]

/-- `create_item` of `main2.py`: id is `max(items.keys(), default=0) + 1`
and the supplied `item_id` argument is ignored. -/
def create_item (item : String) (s : Store) : Store × Nat :=
  let newId := (s.map Prod.fst).foldr max 0 + 1
  (s ++ [(newId, item)], newId)

/-- Tag distinguishing the two success bodies of `main2.py`'s PUT. -/
inductive UpdResult where
  | added : UpdResult
  | updated : UpdResult
deriving Repr, DecidableEq

/-- Replace the value stored at a present key. -/
def setKey (id : Nat) (v : String) : List (Nat × String) → List (Nat × String)
  | [] => []
  | kv :: rest => if kv.1 == id then (id, v) :: rest else kv :: setKey id v rest

/-- `update_item` of `main2.py`: an upsert — a missing id is inserted as
a new entry (tagged `added`), a present id is overwritten (`updated`). -/
def update_item (id : Nat) (v : String) (s : Store) : Store × UpdResult :=
  if s.any (fun kv => kv.1 == id) then (setKey id v s, .updated)
  else (s ++ [(id, v)], .added)

/-- `delete_item` of `main2.py`: hard delete, 404 when absent. -/
def delete_item (id : Nat) (s : Store) : Store × Except Main25.Err Unit :=
  if s.any (fun kv => kv.1 == id) then
    (s.filter (fun kv => !(kv.1 == id)), .ok ())
  else (s, .error .notFound)

end Main2

namespace Main18

/-- `OrderStatus` of `main18.py`. -/
inductive OrderStatus where
  | pending | processing | shipped | delivered | cancelled
deriving Repr, DecidableEq

/-- An `Order` of `main18.py`; `price` is modelled as a rational. -/
structure Order where
  id : Nat
  item : String
  quantity : Nat
  price : Rat
  status : OrderStatus
  customer_email : Option String
  notes : Option String
deriving Repr, DecidableEq

/-- Request body of `POST /orders/` (`OrderCreate`), already past
pydantic validation. -/
structure OrderCreate where
  item : String
  quantity : Nat
  price : Rat
  customer_email : Option String := none
  notes : Option String := none
deriving Repr, DecidableEq

/-- The module-level state of `main18.py`: the `orders` list and the
global `next_id` counter. -/
structure State where
  orders : List Order
  next_id : Nat
deriving Repr, DecidableEq

/-- Startup state: `orders = []`, `next_id = 1`. -/
def initState : State := { orders := [], next_id := 1 }

/-- `create_order` of `main18.py`: the new order takes `next_id` and the
counter is incremented; nothing ever decrements it. -/
def create_order (inp : OrderCreate) (s : State) : State × Order :=
  let o : Order :=
    { id := s.next_id, item := inp.item, quantity := inp.quantity,
      price := inp.price, status := .pending,
      customer_email := inp.customer_email, notes := inp.notes }
  ({ orders := s.orders ++ [o], next_id := s.next_id + 1 }, o)

/-- Remove the first order with the given id. -/
def removeOrder (oid : Nat) : List Order → List Order
  | [] => []
  | o :: os => if o.id == oid then os else o :: removeOrder oid os

/-- `delete_order` of `main18.py`: delete the first match, 404 otherwise. -/
def delete_order (oid : Nat) (s : State) : State × Except Main25.Err Unit :=
  if s.orders.any (fun o => o.id == oid) then
    ({ s with orders := removeOrder oid s.orders }, .ok ())
  else (s, .error .notFound)

/-- A create or delete request against the order store. -/
inductive OOp where
  | create (inp : OrderCreate)
  | del (oid : Nat)

/-- Run one request, extending the trace of assigned ids on a create. -/
def stepO (sl : State × List Nat) (op : OOp) : State × List Nat :=
  match op with
  | .create inp =>
    let (s', o) := create_order inp sl.1
    (s', sl.2 ++ [o.id])
  | .del oid => ((delete_order oid sl.1).1, sl.2)

/-- Run a request sequence from startup, collecting every assigned id in
creation order. -/
def runO (ops : List OOp) : State × List Nat :=
  ops.foldl stepO (initState, [])

/-- Invariant of the order store: every id ever assigned is below the
counter, and the assignment trace is strictly increasing. -/
def TraceInv (sl : State × List Nat) : Prop :=
  (∀ x ∈ sl.2, x < sl.1.next_id) ∧ sl.2.Pairwise (· < ·)

theorem traceInv_step {sl : State × List Nat} (h : TraceInv sl) (op : OOp) :
    TraceInv (stepO sl op) := by
  cases op with
  | create inp =>
    rcases h with ⟨hb, hp⟩
    refine ⟨?_, ?_⟩
    · intro x hx
      simp only [stepO, create_order, List.mem_append, List.mem_singleton] at hx
      rcases hx with hx | hx
      · exact Nat.lt_trans (hb x hx) (Nat.lt_succ_self _)
      · simp [stepO, create_order, hx]
    · refine List.pairwise_append.mpr ⟨hp, List.pairwise_singleton _ _, ?_⟩
      intro a ha b hb'
      rcases List.mem_singleton.mp hb' with rfl
      exact hb a ha
  | del oid =>
    rcases h with ⟨hb, hp⟩
    refine ⟨?_, hp⟩
    intro x hx
    have hn : ((delete_order oid sl.1).1).next_id = sl.1.next_id := by
      unfold delete_order
      by_cases hc : sl.1.orders.any (fun o => o.id == oid) = true
      · simp [hc]
      · simp [hc]
    simpa [stepO, hn] using hb x hx

theorem traceInv_runO (ops : List OOp) : TraceInv (runO ops) := by
  suffices h : ∀ sl, TraceInv sl → TraceInv (ops.foldl stepO sl) from
    h (initState, []) ⟨by simp, List.Pairwise.nil⟩
  induction ops with
  | nil => exact fun sl h => h
  | cons op ops ih =>
    intro sl h
    exact ih _ (traceInv_step h op)

end Main18

namespace Main20

/-- One row of the `users` table of `main20.py`; `email` carries a
database `UNIQUE` constraint. -/
structure User where
  id : Nat
  name : String
  email : String
deriving Repr, DecidableEq

/-- Request body of `POST /users/` (`UserCreate`). -/
structure UserCreate where
  name : String
  email : String
deriving Repr, DecidableEq

/-- The pydantic validator of `UserCreate`: the name must not be blank
(it is stripped before storage). -/
def validUserCreate (u : UserCreate) : Bool := decide (u.name.trim ≠ "")

/-- `create_user` of `main20.py`: pydantic validation, then the insert;
a duplicate email violates the `UNIQUE` index, the `IntegrityError` is
rolled back and surfaced as a 400 conflict.  The id models SQLite rowid
assignment. -/
def create_user (inp : UserCreate) (db : List User) :
    List User × Except Main25.Err User :=
  if validUserCreate inp = false then
    (db, .error (.validation "Name cannot be empty"))
  else if db.any (fun u => u.email == inp.email) then
    (db, .error .conflict)
  else
    let uid := (db.map (·.id)).foldr max 0 + 1
    let u : User := { id := uid, name := inp.name.trim, email := inp.email }
    (db ++ [u], .ok u)

end Main20

namespace Main24

/-- Request body of `main24.py`'s item routes (`Item`): every schema
field, with `description` and `in_stock` defaulted by pydantic. -/
structure ItemIn where
  name : String
  price : Rat
  description : Option String := none
  in_stock : Bool := true
deriving Repr, DecidableEq

/-- A stored row (`ItemResponse` of `main24.py`). -/
structure ItemRow where
  id : Nat
  name : String
  price : Rat
  description : Option String
  in_stock : Bool
deriving Repr, DecidableEq

/-- `read_items` of `main24.py`: `db[skip : skip + limit]`. -/
def read_items (skip limit : Nat) (db : List ItemRow) : List ItemRow :=
  (db.drop skip).take limit

/-- `update_item` of `main24.py`: a full replace — the first row whose
id matches is rebuilt from the input with the path id kept; 404 (and
no insertion) when no row matches. -/
def update_item (iid : Nat) (inp : ItemIn) :
    List ItemRow → List ItemRow × Except Main25.Err ItemRow
  | [] => ([], .error .notFound)
  | x :: xs =>
    if x.id == iid then
      let r : ItemRow :=
        { id := iid, name := inp.name, price := inp.price,
          description := inp.description, in_stock := inp.in_stock }
      (r :: xs, .ok r)
    else
      let rec' := update_item iid inp xs
      (x :: rec'.1, rec'.2)

end Main24

namespace Main26

/-- One row of the `products` table of `main26.py`. -/
structure Product where
  id : Nat
  name : String
  description : Option String
  price : Rat
  in_stock : Bool
  created_at : Nat
  updated_at : Nat
deriving Repr, DecidableEq

/-- Request body of `PUT /products/{id}` (`ProductUpdate`): all fields
optional, `none` meaning omitted (`exclude_unset`). -/
structure ProductUpdate where
  name : Option String := none
  description : Option (Option String) := none
  price : Option Rat := none
  in_stock : Option Bool := none
deriving Repr, DecidableEq

/-- Replace the first product with the given id. -/
def replaceProduct (pid : Nat) (new : Product) : List Product → List Product
  | [] => []
  | y :: ys =>
    if y.id == pid then new :: ys else y :: replaceProduct pid new ys

/-- `update_product` of `main26.py`: 404 on a missing id, otherwise the
`setattr` loop over `exclude_unset` fields followed unconditionally by
`updated_at = utcnow()` — an empty patch is accepted and still
refreshes `updated_at`. -/
def update_product (now pid : Nat) (p : ProductUpdate) (db : List Product) :
    List Product × Except Main25.Err Product :=
  match db.find? (fun pr => pr.id == pid) with
  | none => (db, .error .notFound)
  | some pr =>
    let pr2 : Product :=
      { pr with
        name := p.name.getD pr.name,
        description := p.description.getD pr.description,
        price := p.price.getD pr.price,
        in_stock := p.in_stock.getD pr.in_stock,
        updated_at := now }
    (replaceProduct pid pr2 db, .ok pr2)

end Main26

namespace Main25

theorem mem_replaceFirst {id : Nat} {new x : Item} {l : List Item}
    (h : x ∈ replaceFirst id new l) : x ∈ l ∨ x = new := by
  induction l with
  | nil => simp [replaceFirst] at h
  | cons y ys ih =>
    cases hy : y.id == id with
    | true =>
      simp only [replaceFirst, hy, if_true, List.mem_cons] at h
      rcases h with h | h
      · exact Or.inr h
      · exact Or.inl (List.mem_cons_of_mem _ h)
    | false =>
      simp only [replaceFirst, hy, Bool.false_eq_true, if_false,
        List.mem_cons] at h
      rcases h with h | h
      · exact Or.inl (by simp [h])
      · rcases ih h with h' | h'
        · exact Or.inl (List.mem_cons_of_mem _ h')
        · exact Or.inr h'

theorem find?_replaceFirst {id : Nat} {new it : Item} {l : List Item}
    (h : l.find? (fun o => o.id == id) = some it) (hn : (new.id == id) = true) :
    (replaceFirst id new l).find? (fun o => o.id == id) = some new := by
  induction l with
  | nil => simp [List.find?] at h
  | cons y ys ih =>
    cases hy : y.id == id with
    | true => simp only [replaceFirst, hy, if_true, List.find?, hn]
    | false =>
      simp only [List.find?, hy] at h
      simp only [replaceFirst, hy, Bool.false_eq_true, if_false, List.find?]
      exact ih h

theorem self_mem_replaceFirst {id : Nat} {new it : Item} {l : List Item}
    (h : l.find? (fun o => o.id == id) = some it) :
    new ∈ replaceFirst id new l := by
  induction l with
  | nil => simp [List.find?] at h
  | cons y ys ih =>
    cases hy : y.id == id with
    | true => simp [replaceFirst, hy]
    | false =>
      simp only [List.find?, hy] at h
      simp only [replaceFirst, hy, Bool.false_eq_true, if_false]
      exact List.mem_cons_of_mem _ (ih h)

/-- Ids and names pairwise distinct: the store invariant behind natural-key
uniqueness. -/
def Rinv (a b : Item) : Prop := a.id ≠ b.id ∧ a.name ≠ b.name

theorem rinv_symm : Symmetric Rinv := by
  intro a b h
  exact ⟨fun e => h.1 e.symm, fun e => h.2 e.symm⟩

/-- All rows of the store have pairwise distinct ids and names. -/
def StoreInv (db : List Item) : Prop := db.Pairwise Rinv

theorem le_foldr_max {l : List Nat} {x : Nat} (h : x ∈ l) :
    x ≤ l.foldr max 0 := by
  induction l with
  | nil => simp at h
  | cons a l ih =>
    rcases List.mem_cons.mp h with h | h
    · simp [h, Nat.le_max_left]
    · exact Nat.le_trans (ih h) (by simp [Nat.le_max_right])

theorem pairwise_replaceFirst {id : Nat} {new it : Item} {db : List Item}
    (hinv : StoreInv db) (hf : db.find? (fun o => o.id == id) = some it)
    (hid : new.id = it.id)
    (hname : ∀ y ∈ db, y.id ≠ it.id → y.name ≠ new.name) :
    StoreInv (replaceFirst id new db) := by
  induction db with
  | nil => simp [List.find?] at hf
  | cons y ys ih =>
    rcases List.pairwise_cons.mp hinv with ⟨hy, hys⟩
    cases hyid : y.id == id with
    | true =>
      simp only [List.find?, hyid] at hf
      have hy_it : y = it := by injection hf
      subst hy_it
      simp only [replaceFirst, hyid, if_true]
      refine List.pairwise_cons.mpr ⟨?_, hys⟩
      intro z hz
      refine ⟨?_, ?_⟩
      · rw [hid]; exact (hy z hz).1
      · intro e
        exact hname z (List.mem_cons_of_mem _ hz)
          (fun e2 => (hy z hz).1 e2.symm) e.symm
    | false =>
      simp only [List.find?, hyid] at hf
      simp only [replaceFirst, hyid, Bool.false_eq_true, if_false]
      refine List.pairwise_cons.mpr ⟨?_, ?_⟩
      · intro z hz
        rcases mem_replaceFirst hz with h | h
        · exact hy z h
        · subst h
          have hitid : it.id = id := by simpa using List.find?_some hf
          have hyne : y.id ≠ it.id := by
            intro e2
            have htr : (y.id == id) = true := by simp [e2, hitid]
            rw [htr] at hyid
            exact absurd hyid (by decide)
          refine ⟨?_, ?_⟩
          · rw [hid]; exact hyne
          · exact hname y (List.mem_cons_self y ys) hyne
      · exact ih hys hf (fun z hz hzid => hname z (List.mem_cons_of_mem _ hz) hzid)

theorem eraseFirst_sublist (id : Nat) (l : List Item) :
    List.Sublist (eraseFirst id l) l := by
  induction l with
  | nil => simp [eraseFirst]
  | cons y ys ih =>
    by_cases hy : (y.id == id) = true
    · simp only [eraseFirst, hy, if_pos]
      exact List.sublist_cons_self y ys
    · simp only [eraseFirst, hy, Bool.false_eq_true, if_false]
      exact List.Sublist.cons₂ y ih

theorem storeInv_create {db : List Item} (hinv : StoreInv db)
    (now : Nat) (inp : ItemCreate) : StoreInv (createItem now inp db).1 := by
  unfold createItem
  by_cases hv : validItemCreate inp = false
  · simp [hv, hinv]
  · simp only [hv, Bool.false_eq_true, if_false]
    by_cases hc : db.any (fun it => it.name == inp.name) = true
    · simp [hc, hinv]
    · simp only [hc, Bool.false_eq_true, if_false]
      refine List.pairwise_append.mpr ⟨hinv, List.pairwise_singleton _ _, ?_⟩
      intro a ha b hb
      rcases List.mem_singleton.mp hb with rfl
      refine ⟨?_, ?_⟩
      · intro e
        have hle : a.id ≤ (db.map (·.id)).foldr max 0 :=
          le_foldr_max (List.mem_map_of_mem (·.id) ha)
        simp only at e
        omega
      · intro e
        exact hc (List.any_eq_true.mpr ⟨a, ha, by simp [e]⟩)

theorem storeInv_update {db : List Item} (hinv : StoreInv db)
    (now id : Nat) (p : ItemUpdate) : StoreInv (updateItem now id p db).1 := by
  unfold updateItem
  by_cases hv : validItemUpdate p = false
  · simp [hv, hinv]
  · simp only [hv, Bool.false_eq_true, if_false]
    cases hf : db.find? (fun it => it.id == id) with
    | none => simpa using hinv
    | some it =>
      simp only
      by_cases hne : patchNonempty p = false
      · simp [hne, hinv]
      · simp only [hne, Bool.false_eq_true, if_false]
        have hitid : it.id = id := by
          have h2 := List.find?_some hf
          simpa using h2
        cases hp : p.name with
        | none =>
          simp only
          refine pairwise_replaceFirst hinv hf (by simp [applyPatch]) ?_
          intro y hy hyid
          have hit : it ∈ db := List.mem_of_find?_eq_some hf
          have h3 := hinv.forall rinv_symm hy hit (fun e => hyid (by rw [e]))
          simpa [applyPatch, hp] using h3.2
        | some n =>
          simp only
          by_cases hc : db.any (fun o => o.name == n && !(o.id == id)) = true
          · simp [hc, hinv]
          · simp only [hc, Bool.false_eq_true, if_false]
            refine pairwise_replaceFirst hinv hf (by simp [applyPatch]) ?_
            intro y hy hyid
            have hce := fun hp => hc (List.any_eq_true.mpr hp)
            simp only [applyPatch, hp, Option.getD_some]
            intro e
            exact hce ⟨y, hy, by simp [e, hitid ▸ hyid]⟩

theorem storeInv_softDelete {db : List Item} (hinv : StoreInv db)
    (now id : Nat) : StoreInv (deleteItem now id db).1 := by
  unfold deleteItem
  cases hf : db.find? (fun it => it.id == id) with
  | none => simpa using hinv
  | some it =>
    simp only
    refine pairwise_replaceFirst hinv hf rfl ?_
    intro y hy hyid
    have hit : it ∈ db := List.mem_of_find?_eq_some hf
    exact (hinv.forall rinv_symm hy hit (fun e => hyid (by rw [e]))).2

theorem storeInv_hardDelete {db : List Item} (hinv : StoreInv db)
    (id : Nat) : StoreInv (deleteItemPermanent id db).1 := by
  unfold deleteItemPermanent
  cases hf : db.find? (fun it => it.id == id) with
  | none => simpa using hinv
  | some it => exact hinv.sublist (eraseFirst_sublist id db)

theorem storeInv_applyOp {db : List Item} (hinv : StoreInv db) (op : Op) :
    StoreInv (applyOp db op) := by
  cases op with
  | create now inp => exact storeInv_create hinv now inp
  | update now id p => exact storeInv_update hinv now id p
  | softDelete now id => exact storeInv_softDelete hinv now id
  | hardDelete id => exact storeInv_hardDelete hinv id

theorem storeInv_runOps (ops : List Op) : StoreInv (runOps ops) := by
  suffices h : ∀ db, StoreInv db → StoreInv (ops.foldl applyOp db) from
    h [] (List.Pairwise.nil)
  induction ops with
  | nil => exact fun db h => h
  | cons op ops ih =>
    intro db h
    exact ih _ (storeInv_applyOp h op)

theorem insertDesc_perm (x : Item) (l : List Item) :
    (insertDesc x l).Perm (x :: l) := by
  induction l with
  | nil => simp [insertDesc]
  | cons y ys ih =>
    by_cases h : y.created_at < x.created_at
    · simp [insertDesc, h]
    · simp only [insertDesc, h, if_false]
      exact (ih.cons y).trans (List.Perm.swap x y ys)

theorem sortDesc_perm (l : List Item) : (sortDesc l).Perm l := by
  induction l with
  | nil => simp [sortDesc]
  | cons x xs ih =>
    have h1 : sortDesc (x :: xs) = insertDesc x (sortDesc xs) := rfl
    rw [h1]
    exact (insertDesc_perm x (sortDesc xs)).trans (ih.cons x)

theorem insertDesc_of_forall {x : Item} {l : List Item}
    (h : ∀ y ∈ l, ¬ y.created_at < x.created_at) :
    insertDesc x l = l ++ [x] := by
  induction l with
  | nil => simp [insertDesc]
  | cons y ys ih =>
    have hy : ¬ y.created_at < x.created_at := h y (List.mem_cons_self y ys)
    simp only [insertDesc, hy, if_false, List.cons_append]
    rw [ih (fun z hz => h z (List.mem_cons_of_mem _ hz))]

/-- On a store whose rows carry strictly increasing creation times (in
insertion order), `ORDER BY created_at DESC` is exactly most-recent-first
creation order. -/
theorem sortDesc_eq_reverse {l : List Item}
    (h : l.Pairwise (fun a b => a.created_at < b.created_at)) :
    sortDesc l = l.reverse := by
  induction l with
  | nil => simp [sortDesc]
  | cons x xs ih =>
    rcases List.pairwise_cons.mp h with ⟨hx, hxs⟩
    have h1 : sortDesc (x :: xs) = insertDesc x (sortDesc xs) := rfl
    rw [h1, ih hxs, insertDesc_of_forall, List.reverse_cons]
    intro y hy
    exact Nat.lt_asymm (hx y (List.mem_reverse.mp hy))

theorem chunk_eq_take (pp : Nat) (L : List Item) :
    ∀ n, ((List.range n).map (fun k => (L.drop (k * pp)).take pp)).flatten
      = L.take (n * pp) := by
  intro n
  induction n with
  | zero => simp
  | succ m ih =>
    rw [List.range_succ, List.map_append, List.flatten_append, ih]
    have h2 : (m + 1) * pp = m * pp + pp := Nat.succ_mul m pp
    rw [h2, List.take_add]
    simp

theorem ceil_mul_ge {a pp : Nat} (h : 0 < pp) : a ≤ (a + pp - 1) / pp * pp := by
  cases a with
  | zero => simp
  | succ a' =>
    have h1 : a' + 1 + pp - 1 = a' + pp := by omega
    rw [h1, Nat.add_div_right a' h]
    have h2 : a' < (a' / pp + 1) * pp := (Nat.div_lt_iff_lt_mul h).mp (Nat.lt_succ_self _)
    omega

/-- Success inversion for `updateItem`: an `ok` result comes from the
commit branch, so the returned record is the patched first match and the
new state replaces that row. -/
theorem updateItem_ok {now id : Nat} {p : ItemUpdate} {db db' : List Item}
    {it2 : Item} (h : updateItem now id p db = (db', Except.ok it2)) :
    ∃ it, db.find? (fun o => o.id == id) = some it ∧
      it2 = applyPatch p now it ∧ db' = replaceFirst id it2 db := by
  unfold updateItem at h
  by_cases hv : validItemUpdate p = false
  · simp [hv] at h
  · simp only [hv, Bool.false_eq_true, if_false] at h
    cases hf : db.find? (fun o => o.id == id) with
    | none => rw [hf] at h; simp at h
    | some it =>
      rw [hf] at h
      simp only at h
      by_cases hne : patchNonempty p = false
      · simp [hne] at h
      · simp only [hne, Bool.false_eq_true, if_false] at h
        cases hp : p.name with
        | none =>
          rw [hp] at h
          simp at h
          exact ⟨it, rfl, h.2.symm, by rw [← h.2]; exact h.1.symm⟩
        | some n =>
          rw [hp] at h
          by_cases hc : db.any (fun o => o.name == n && !(o.id == id)) = true
          · simp [hc] at h
          · simp [hc] at h
            exact ⟨it, rfl, h.2.symm, by rw [← h.2]; exact h.1.symm⟩

end Main25

/-- C1: under the counter-based id assignment of `main18.py` the claim
holds: over any interleaving of creates and deletes from startup, the
trace of assigned order ids is strictly increasing (hence no id — in
particular no deleted record's id — is ever assigned twice), and every
assigned id stays below the live counter. -/
theorem C1_id_monotonicity (ops : List Main18.OOp) :
    (Main18.runO ops).2.Pairwise (· < ·) ∧
      ∀ x ∈ (Main18.runO ops).2, x < (Main18.runO ops).1.next_id :=
  ⟨(Main18.traceInv_runO ops).2, (Main18.traceInv_runO ops).1⟩

/-- C1 counterexample: `main2.py` assigns `max(items.keys(), default=0)+1`,
so on an empty store the claim's own scenario fails: create is assigned
id 1, the record is hard-deleted, and the next create is assigned id 1
again — not id 2. -/
theorem C1_counterexample :
    (Main2.create_item "pen" []).2 = 1 ∧
    (Main2.delete_item 1 (Main2.create_item "pen" []).1).2 = Except.ok () ∧
    (Main2.create_item "book"
        (Main2.delete_item 1 (Main2.create_item "pen" []).1).1).2 = 1 := by
  exact ⟨rfl, rfl, rfl⟩

/-- C2 (amended): in `main25.py` the name-conflict check runs against
every stored row, active or not.  For any valid input, `create_item`
returns `ConflictError` exactly when some row — of either activity —
already holds the name; and in every state reachable from the empty
store, any two active records have equal ids or distinct names. -/
theorem C2_uniqueness :
    (∀ (now : Nat) (inp : Main25.ItemCreate) (db : List Main25.Item),
        Main25.validItemCreate inp = true →
        ((Main25.createItem now inp db).2 = Except.error Main25.Err.conflict ↔
          ∃ it ∈ db, it.name = inp.name)) ∧
    (∀ (ops : List Main25.Op), ∀ a ∈ Main25.runOps ops,
        ∀ b ∈ Main25.runOps ops,
        a.is_active = true → b.is_active = true →
        a.id = b.id ∨ a.name ≠ b.name) := by
  constructor
  · intro now inp db hv
    constructor
    · intro he
      cases han : db.any (fun it => it.name == inp.name) with
      | true =>
        rcases List.any_eq_true.mp han with ⟨it, hit, hbeq⟩
        exact ⟨it, hit, by simpa using hbeq⟩
      | false => simp [Main25.createItem, hv, han] at he
    · rintro ⟨it, hit, hname⟩
      have han : db.any (fun it => it.name == inp.name) = true :=
        List.any_eq_true.mpr ⟨it, hit, by simp [hname]⟩
      simp [Main25.createItem, hv, han]
  · intro ops a ha b hb _ _
    by_cases hab : a = b
    · exact Or.inl (by rw [hab])
    · exact Or.inr
        (((Main25.storeInv_runOps ops).forall Main25.rinv_symm ha hb hab).2)

/-- Witness for C2: on a store holding the single active record named
"B", creating another "B" is a conflict. -/
theorem C2_uniqueness_witness :
    (Main25.createItem 0 { name := "B" }
        [{ id := 1, name := "B", description := none, price := none,
           category := none, is_active := true, created_at := 0,
           updated_at := 0 }]).2 = Except.error Main25.Err.conflict :=
  (C2_uniqueness.1 0 { name := "B" } _ (by decide)).mpr
    ⟨_, List.mem_singleton.mpr rfl, rfl⟩

/-- C2 counterexample: the claim's "a create whose natural key matches
only inactive records succeeds" is false — on a store holding a single
soft-deleted record named "A", creating a valid "A" is rejected as a
conflict. -/
theorem C2_counterexample :
    Main25.validItemCreate { name := "A" } = true ∧
    (([{ id := 1, name := "A", description := none, price := none,
         category := none, is_active := false, created_at := 0,
         updated_at := 0 }] : List Main25.Item).all
      fun it => !it.is_active) = true ∧
    (Main25.createItem 5 { name := "A" }
        [{ id := 1, name := "A", description := none, price := none,
           category := none, is_active := false, created_at := 0,
           updated_at := 0 }]).2 = Except.error Main25.Err.conflict := by
  exact ⟨by decide, by decide, rfl⟩

/-- C3: soft delete of an existing record succeeds; the record is still
returned by direct id lookup with `is_active = false` and `updated_at`
refreshed; it is excluded from the default (active-only) listing scope
and included once the listing requests inactive records. -/
theorem C3_soft_delete_visibility
    (db : List Main25.Item) (id now : Nat) (it : Main25.Item)
    (hf : db.find? (fun o => o.id == id) = some it) :
    (Main25.deleteItem now id db).2 = Except.ok () ∧
    Main25.readItem id (Main25.deleteItem now id db).1 =
      ((Main25.deleteItem now id db).1,
        Except.ok { it with is_active := false, updated_at := now }) ∧
    (∀ x ∈ ((Main25.deleteItem now id db).1).filter (Main25.keepItem {}),
      x ≠ { it with is_active := false, updated_at := now }) ∧
    { it with is_active := false, updated_at := now } ∈
      ((Main25.deleteItem now id db).1).filter
        (Main25.keepItem { active_only := false }) := by
  have hid0 : it.id = id := by simpa using List.find?_some hf
  have hid : (Main25.Item.id { it with is_active := false, updated_at := now }
      == id) = true := by simp [hid0]
  have hdel : Main25.deleteItem now id db =
      (Main25.replaceFirst id { it with is_active := false, updated_at := now } db,
        Except.ok ()) := by
    unfold Main25.deleteItem
    rw [hf]
  refine ⟨by rw [hdel], ?_, ?_, ?_⟩
  · rw [hdel]
    unfold Main25.readItem
    rw [Main25.find?_replaceFirst hf hid]
  · intro x hx he
    have hkeep := (List.mem_filter.mp hx).2
    rw [he] at hkeep
    simp [Main25.keepItem] at hkeep
  · rw [hdel]
    refine List.mem_filter.mpr ⟨Main25.self_mem_replaceFirst hf, ?_⟩
    simp [Main25.keepItem]

/-- Witness for C3 at a one-record store. -/
theorem C3_soft_delete_visibility_witness :
    (Main25.deleteItem 7 1
        [{ id := 1, name := "A", description := none, price := none,
           category := none, is_active := true, created_at := 0,
           updated_at := 0 }]).2 = Except.ok () :=
  (C3_soft_delete_visibility
    [{ id := 1, name := "A", description := none, price := none,
       category := none, is_active := true, created_at := 0,
       updated_at := 0 }] 1 7
    { id := 1, name := "A", description := none, price := none,
      category := none, is_active := true, created_at := 0,
      updated_at := 0 } rfl).1

/-- C4: a partial update that succeeds leaves every omitted field of the
record unchanged (on the returned record and on the row stored at that
id), preserves `id` and `created_at`, while a field that is present in
the patch — even explicitly set to null — does overwrite. -/
theorem C4_partial_update_frame
    (db : List Main25.Item) (id now : Nat) (p : Main25.ItemUpdate)
    (it it2 : Main25.Item) (db' : List Main25.Item)
    (hf : db.find? (fun o => o.id == id) = some it)
    (hok : Main25.updateItem now id p db = (db', Except.ok it2)) :
    (p.name = none → it2.name = it.name) ∧
    (p.description = none → it2.description = it.description) ∧
    (p.price = none → it2.price = it.price) ∧
    (p.category = none → it2.category = it.category) ∧
    (p.is_active = none → it2.is_active = it.is_active) ∧
    it2.id = it.id ∧ it2.created_at = it.created_at ∧
    (∀ v, p.description = some v → it2.description = v) ∧
    db'.find? (fun o => o.id == id) = some it2 := by
  obtain ⟨it0, hf0, hit2, hdb'⟩ := Main25.updateItem_ok hok
  have hit0 : it0 = it := by rw [hf0] at hf; injection hf
  rw [hit0] at hit2
  have hid2 : (it2.id == id) = true := by
    have h1 : it.id = id := by simpa using List.find?_some hf
    rw [hit2]
    simp [Main25.applyPatch, h1]
  refine ⟨?_, ?_, ?_, ?_, ?_, ?_, ?_, ?_, ?_⟩
  · intro h; rw [hit2]; simp [Main25.applyPatch, h]
  · intro h; rw [hit2]; simp [Main25.applyPatch, h]
  · intro h; rw [hit2]; simp [Main25.applyPatch, h]
  · intro h; rw [hit2]; simp [Main25.applyPatch, h]
  · intro h; rw [hit2]; simp [Main25.applyPatch, h]
  · rw [hit2]; simp [Main25.applyPatch]
  · rw [hit2]; simp [Main25.applyPatch]
  · intro v hv; rw [hit2]; simp [Main25.applyPatch, hv]
  · rw [hdb']
    exact Main25.find?_replaceFirst hf hid2

/-- Witness for C4: patching only the price of a one-record store keeps
the name. -/
theorem C4_partial_update_frame_witness :
    ({ id := 1, name := "A", description := none, price := some "15",
       category := none, is_active := true, created_at := 0,
       updated_at := 9 } : Main25.Item).name =
      ({ id := 1, name := "A", description := none, price := some "10",
         category := none, is_active := true, created_at := 0,
         updated_at := 0 } : Main25.Item).name :=
  (C4_partial_update_frame
      [{ id := 1, name := "A", description := none, price := some "10",
         category := none, is_active := true, created_at := 0,
         updated_at := 0 }] 1 9 { price := some (some "15") }
      { id := 1, name := "A", description := none, price := some "10",
        category := none, is_active := true, created_at := 0,
        updated_at := 0 }
      { id := 1, name := "A", description := none, price := some "15",
        category := none, is_active := true, created_at := 0,
        updated_at := 9 }
      [{ id := 1, name := "A", description := none, price := some "15",
         category := none, is_active := true, created_at := 0,
         updated_at := 9 }] rfl rfl).1 rfl

/-- C10: a patch that only sets `is_active` always succeeds on an
existing record — nothing restricts which records may be reactivated or
deactivated — and setting it to true puts the record back into the
default active-only listing scope. -/
theorem C10_soft_delete_reversible
    (db : List Main25.Item) (id now : Nat) (b : Bool) (it : Main25.Item)
    (hf : db.find? (fun o => o.id == id) = some it) :
    (Main25.updateItem now id { is_active := some b } db).2 =
      Except.ok { it with is_active := b, updated_at := now } ∧
    (b = true → { it with is_active := b, updated_at := now } ∈
      ((Main25.updateItem now id { is_active := some b } db).1).filter
        (Main25.keepItem {})) := by
  have hup : Main25.updateItem now id { is_active := some b } db =
      (Main25.replaceFirst id { it with is_active := b, updated_at := now } db,
        Except.ok { it with is_active := b, updated_at := now }) := by
    unfold Main25.updateItem
    rw [hf]
    simp [Main25.validItemUpdate, Main25.patchNonempty, Main25.applyPatch]
  refine ⟨by rw [hup], ?_⟩
  intro hb
  rw [hup]
  refine List.mem_filter.mpr ⟨Main25.self_mem_replaceFirst hf, ?_⟩
  simp [Main25.keepItem, hb]

/-- Witness for C10: reactivating the soft-deleted record of a
one-record store. -/
theorem C10_soft_delete_reversible_witness :
    (Main25.updateItem 9 1 { is_active := some true }
        [{ id := 1, name := "A", description := none, price := none,
           category := none, is_active := false, created_at := 0,
           updated_at := 5 }]).2 =
      Except.ok { id := 1, name := "A", description := none, price := none,
                  category := none, is_active := true, created_at := 0,
                  updated_at := 9 } :=
  (C10_soft_delete_reversible
    [{ id := 1, name := "A", description := none, price := none,
       category := none, is_active := false, created_at := 0,
       updated_at := 5 }] 1 9 true
    { id := 1, name := "A", description := none, price := none,
      category := none, is_active := false, created_at := 0,
      updated_at := 5 } rfl).1

/-- C5: for a fixed filter and per-page size, concatenating the item
slices of pages `1 .. total_pages` (with
`total_pages = (total + per_page - 1) / per_page`) yields exactly the
ordered filtered list, which is a permutation of the filtered record
set — no duplicates, no omissions. -/
theorem C5_pagination_completeness
    (db : List Main25.Item) (f : Main25.ListFilter) (pp : Nat)
    (h1 : 1 ≤ pp) (h2 : pp ≤ 100) :
    ((List.range (((db.filter (Main25.keepItem f)).length + pp - 1) / pp)).map
        (fun k => (Main25.readItems (k + 1) pp f db).items)).flatten
      = Main25.sortDesc (db.filter (Main25.keepItem f)) ∧
    (Main25.sortDesc (db.filter (Main25.keepItem f))).Perm
      (db.filter (Main25.keepItem f)) := by
  constructor
  · have he : ∀ k, (Main25.readItems (k + 1) pp f db).items
        = ((Main25.sortDesc (db.filter (Main25.keepItem f))).drop (k * pp)).take pp := by
      intro k
      simp [Main25.readItems]
    simp only [he]
    rw [Main25.chunk_eq_take]
    apply List.take_of_length_le
    rw [(Main25.sortDesc_perm _).length_eq]
    exact Main25.ceil_mul_ge h1
  · exact Main25.sortDesc_perm _

/-- Witness for C5 on a three-record store with two active records and
page size 1. -/
theorem C5_pagination_completeness_witness :
    ((List.range (((([
        { id := 1, name := "A", description := none, price := none,
          category := none, is_active := true, created_at := 1,
          updated_at := 1 },
        { id := 2, name := "B", description := none, price := none,
          category := none, is_active := false, created_at := 2,
          updated_at := 2 },
        { id := 3, name := "C", description := none, price := none,
          category := none, is_active := true, created_at := 3,
          updated_at := 3 }] : List Main25.Item).filter
          (Main25.keepItem {})).length + 1 - 1) / 1)).map
        (fun k => (Main25.readItems (k + 1) 1 {} [
        { id := 1, name := "A", description := none, price := none,
          category := none, is_active := true, created_at := 1,
          updated_at := 1 },
        { id := 2, name := "B", description := none, price := none,
          category := none, is_active := false, created_at := 2,
          updated_at := 2 },
        { id := 3, name := "C", description := none, price := none,
          category := none, is_active := true, created_at := 3,
          updated_at := 3 }]).items)).flatten
      = Main25.sortDesc (([
        { id := 1, name := "A", description := none, price := none,
          category := none, is_active := true, created_at := 1,
          updated_at := 1 },
        { id := 2, name := "B", description := none, price := none,
          category := none, is_active := false, created_at := 2,
          updated_at := 2 },
        { id := 3, name := "C", description := none, price := none,
          category := none, is_active := true, created_at := 3,
          updated_at := 3 }] : List Main25.Item).filter
          (Main25.keepItem {})) :=
  (C5_pagination_completeness _ {} 1 (by decide) (by decide)).1

/-- C6: the listing reports `total` as the filtered count before
slicing, returns the slice `[(page-1)*per_page, page*per_page)` of the
filtered records ordered by descending creation time — which is exactly
reverse insertion order (most-recent-first creation order) whenever the
stored creation times strictly increase in insertion order — returns an
empty slice (not an error) for a page past the end, and reports
`total_pages = ceil(total / per_page)`. -/
theorem C6_list_slicing
    (db : List Main25.Item) (f : Main25.ListFilter) (page pp : Nat)
    (hpage : 1 ≤ page) (h1 : 1 ≤ pp) (h2 : pp ≤ 100) :
    (Main25.readItems page pp f db).total
      = (db.filter (Main25.keepItem f)).length ∧
    (Main25.readItems page pp f db).items
      = ((Main25.sortDesc (db.filter (Main25.keepItem f))).drop
          ((page - 1) * pp)).take pp ∧
    (db.Pairwise (fun a b => a.created_at < b.created_at) →
      (Main25.readItems page pp f db).items
        = ((db.filter (Main25.keepItem f)).reverse.drop
            ((page - 1) * pp)).take pp) ∧
    ((db.filter (Main25.keepItem f)).length ≤ (page - 1) * pp →
      (Main25.readItems page pp f db).items = []) ∧
    (Main25.readItems page pp f db).total_pages
      = ((db.filter (Main25.keepItem f)).length + pp - 1) / pp := by
  refine ⟨rfl, rfl, ?_, ?_, rfl⟩
  · intro hmono
    have hps : (db.filter (Main25.keepItem f)).Pairwise
        (fun a b => a.created_at < b.created_at) := hmono.filter _
    simp [Main25.readItems, Main25.sortDesc_eq_reverse hps]
  · intro hle
    have hlen : (Main25.sortDesc (db.filter (Main25.keepItem f))).length
        ≤ (page - 1) * pp := by
      rw [(Main25.sortDesc_perm _).length_eq]
      exact hle
    simp [Main25.readItems, List.drop_eq_nil_of_le hlen]

/-- Witness for C6: page 2 of a two-record store at one record per
page. -/
theorem C6_list_slicing_witness :
    (Main25.readItems 2 1 {} [
        { id := 1, name := "A", description := none, price := none,
          category := none, is_active := true, created_at := 1,
          updated_at := 1 },
        { id := 2, name := "B", description := none, price := none,
          category := none, is_active := true, created_at := 2,
          updated_at := 2 }]).total = 2 :=
  (C6_list_slicing [
        { id := 1, name := "A", description := none, price := none,
          category := none, is_active := true, created_at := 1,
          updated_at := 1 },
        { id := 2, name := "B", description := none, price := none,
          category := none, is_active := true, created_at := 2,
          updated_at := 2 }] {} 2 1 (by decide) (by decide) (by decide)).1

/-- C7: every embedded store operation, on every input, yields either a
success value or one typed error (`NotFoundError`, `ValidationError`,
`ConflictError`), and in every error case the store state is returned
completely unchanged — no partial write is observable. -/
theorem C7_error_atomicity :
    (∀ (now : Nat) (inp : Main25.ItemCreate) (db : List Main25.Item),
      (∃ r, (Main25.createItem now inp db).2 = Except.ok r) ∨
      (∃ e, (Main25.createItem now inp db).2 = Except.error e ∧
        (Main25.createItem now inp db).1 = db)) ∧
    (∀ (id : Nat) (db : List Main25.Item),
      (∃ r, (Main25.readItem id db).2 = Except.ok r) ∨
      (∃ e, (Main25.readItem id db).2 = Except.error e ∧
        (Main25.readItem id db).1 = db)) ∧
    (∀ (now id : Nat) (p : Main25.ItemUpdate) (db : List Main25.Item),
      (∃ r, (Main25.updateItem now id p db).2 = Except.ok r) ∨
      (∃ e, (Main25.updateItem now id p db).2 = Except.error e ∧
        (Main25.updateItem now id p db).1 = db)) ∧
    (∀ (now id : Nat) (db : List Main25.Item),
      (∃ r, (Main25.deleteItem now id db).2 = Except.ok r) ∨
      (∃ e, (Main25.deleteItem now id db).2 = Except.error e ∧
        (Main25.deleteItem now id db).1 = db)) ∧
    (∀ (id : Nat) (db : List Main25.Item),
      (∃ r, (Main25.deleteItemPermanent id db).2 = Except.ok r) ∨
      (∃ e, (Main25.deleteItemPermanent id db).2 = Except.error e ∧
        (Main25.deleteItemPermanent id db).1 = db)) ∧
    (∀ (inp : Main20.UserCreate) (db : List Main20.User),
      (∃ r, (Main20.create_user inp db).2 = Except.ok r) ∨
      (∃ e, (Main20.create_user inp db).2 = Except.error e ∧
        (Main20.create_user inp db).1 = db)) := by
  refine ⟨?_, ?_, ?_, ?_, ?_, ?_⟩
  · intro now inp db
    unfold Main25.createItem
    by_cases hv : Main25.validItemCreate inp = false
    · exact Or.inr ⟨Main25.Err.validation "Invalid input",
        by simp [hv], by simp [hv]⟩
    · by_cases hc : db.any (fun it => it.name == inp.name) = true
      · exact Or.inr ⟨Main25.Err.conflict, by simp [hv, hc], by simp [hv, hc]⟩
      · exact Or.inl ⟨{ id := (db.map (·.id)).foldr max 0 + 1,
                         name := inp.name, description := inp.description,
                         price := inp.price, category := inp.category,
                         is_active := inp.is_active, created_at := now,
                         updated_at := now },
          by simp [hv, hc]⟩
  · intro id db
    unfold Main25.readItem
    cases hf : db.find? (fun it => it.id == id) with
    | none => exact Or.inr ⟨Main25.Err.notFound, rfl, rfl⟩
    | some it => exact Or.inl ⟨it, rfl⟩
  · intro now id p db
    unfold Main25.updateItem
    by_cases hv : Main25.validItemUpdate p = false
    · exact Or.inr ⟨Main25.Err.validation "Invalid input",
        by simp [hv], by simp [hv]⟩
    · simp only [hv, Bool.false_eq_true, if_false]
      cases hf : db.find? (fun it => it.id == id) with
      | none => exact Or.inr ⟨Main25.Err.notFound, rfl, rfl⟩
      | some it =>
        by_cases hne : Main25.patchNonempty p = false
        · exact Or.inr ⟨Main25.Err.validation "No fields to update",
            by simp [hne], by simp [hne]⟩
        · simp only [hne, Bool.false_eq_true, if_false]
          cases hp : p.name with
          | none => exact Or.inl ⟨_, rfl⟩
          | some n =>
            by_cases hc : db.any (fun o => o.name == n && !(o.id == id)) = true
            · exact Or.inr ⟨Main25.Err.conflict, by simp [hc], by simp [hc]⟩
            · exact Or.inl ⟨Main25.applyPatch p now it, by simp [hc]⟩
  · intro now id db
    unfold Main25.deleteItem
    cases hf : db.find? (fun it => it.id == id) with
    | none => exact Or.inr ⟨Main25.Err.notFound, rfl, rfl⟩
    | some it => exact Or.inl ⟨(), rfl⟩
  · intro id db
    unfold Main25.deleteItemPermanent
    cases hf : db.find? (fun it => it.id == id) with
    | none => exact Or.inr ⟨Main25.Err.notFound, rfl, rfl⟩
    | some it => exact Or.inl ⟨(), rfl⟩
  · intro inp db
    unfold Main20.create_user
    by_cases hv : Main20.validUserCreate inp = false
    · exact Or.inr ⟨Main25.Err.validation "Name cannot be empty",
        by simp [hv], by simp [hv]⟩
    · by_cases hc : db.any (fun u => u.email == inp.email) = true
      · exact Or.inr ⟨Main25.Err.conflict, by simp [hv, hc], by simp [hv, hc]⟩
      · exact Or.inl ⟨{ id := (db.map (·.id)).foldr max 0 + 1,
                         name := inp.name.trim, email := inp.email },
          by simp [hv, hc]⟩

/-- C8 (amended): in `main24.py` the PUT handler is a true replace —
`NotFoundError` with the store untouched (no record created) when no row
has the id, and on success the returned (and stored) record is rebuilt
from the full input with only the path id preserved.  (`main2.py`'s PUT
instead upserts; see the counterexample.) -/
theorem C8_replace_semantics (iid : Nat) (inp : Main24.ItemIn)
    (db : List Main24.ItemRow) :
    (db.find? (fun r => r.id == iid) = none →
      Main24.update_item iid inp db = (db, Except.error Main25.Err.notFound)) ∧
    (∀ db' r, Main24.update_item iid inp db = (db', Except.ok r) →
      r = { id := iid, name := inp.name, price := inp.price,
            description := inp.description, in_stock := inp.in_stock } ∧
      r ∈ db') := by
  induction db with
  | nil =>
    refine ⟨fun _ => rfl, ?_⟩
    intro db' r h
    simp [Main24.update_item] at h
  | cons x xs ih =>
    constructor
    · intro hf
      cases hx : x.id == iid with
      | true =>
        rw [List.find?] at hf
        rw [hx] at hf
        simp at hf
      | false =>
        rw [List.find?] at hf
        rw [hx] at hf
        have h2 := ih.1 hf
        simp only [Main24.update_item, hx, Bool.false_eq_true, if_false, h2]
    · intro db' r h
      cases hx : x.id == iid with
      | true =>
        simp only [Main24.update_item, hx, if_true] at h
        simp only [Prod.mk.injEq, Except.ok.injEq] at h
        refine ⟨h.2.symm, ?_⟩
        rw [← h.1, ← h.2]
        exact List.mem_cons_self _ _
      | false =>
        simp only [Main24.update_item, hx, Bool.false_eq_true, if_false] at h
        have hsnd : (Main24.update_item iid inp xs).2 = Except.ok r := by
          have h3 := congrArg Prod.snd h
          simpa using h3
        have hrec := ih.2 (Main24.update_item iid inp xs).1 r
          (by rw [← hsnd])
        refine ⟨hrec.1, ?_⟩
        have hfst : x :: (Main24.update_item iid inp xs).1 = db' := by
          have h3 := congrArg Prod.fst h
          simpa using h3
        rw [← hfst]
        exact List.mem_cons_of_mem _ hrec.2

/-- Witness for C8 on a store whose only row has a different id. -/
theorem C8_replace_semantics_witness :
    Main24.update_item 2 { name := "pen", price := 10 }
        [{ id := 1, name := "ink", price := 5, description := none,
           in_stock := true }] =
      ([{ id := 1, name := "ink", price := 5, description := none,
          in_stock := true }], Except.error Main25.Err.notFound) :=
  (C8_replace_semantics 2 { name := "pen", price := 10 }
      [{ id := 1, name := "ink", price := 5, description := none,
         in_stock := true }]).1 rfl

/-- C8 counterexample: in `main2.py`, a PUT at an id that is not in the
store does not return `NotFoundError` — it inserts the record ("added"),
so a record is created. -/
theorem C8_counterexample :
    (Main2.init.any (fun kv => kv.1 == 5)) = false ∧
    (Main2.update_item 5 "pen" Main2.init).2 = Main2.UpdResult.added ∧
    ((Main2.update_item 5 "pen" Main2.init).1.any (fun kv => kv.1 == 5))
      = true := by
  exact ⟨rfl, rfl, rfl⟩

/-- C9 (amended): `main25.py` rejects an empty patch on an existing
record with the 400 validation error "No fields to update", leaving the
store — hence the record and its `updated_at` — exactly unchanged;
`main26.py`'s `update_product`, however, accepts the empty patch,
changes no declared field, and still refreshes `updated_at`. -/
theorem C9_empty_patch
    (db : List Main25.Item) (id now : Nat) (it : Main25.Item)
    (hf : db.find? (fun o => o.id == id) = some it)
    (pdb : List Main26.Product) (pid pnow : Nat) (pr : Main26.Product)
    (hpf : pdb.find? (fun o => o.id == pid) = some pr) :
    Main25.updateItem now id {} db =
      (db, Except.error (Main25.Err.validation "No fields to update")) ∧
    Main26.update_product pnow pid {} pdb =
      (Main26.replaceProduct pid { pr with updated_at := pnow } pdb,
        Except.ok { pr with updated_at := pnow }) := by
  constructor
  · unfold Main25.updateItem
    rw [hf]
    rfl
  · unfold Main26.update_product
    rw [hpf]
    rfl

/-- Witness for C9 on one-record stores. -/
theorem C9_empty_patch_witness :
    Main25.updateItem 9 1 {}
        [{ id := 1, name := "A", description := none, price := none,
           category := none, is_active := true, created_at := 0,
           updated_at := 5 }] =
      ([{ id := 1, name := "A", description := none, price := none,
          category := none, is_active := true, created_at := 0,
          updated_at := 5 }],
        Except.error (Main25.Err.validation "No fields to update")) :=
  (C9_empty_patch
      [{ id := 1, name := "A", description := none, price := none,
         category := none, is_active := true, created_at := 0,
         updated_at := 5 }] 1 9
      { id := 1, name := "A", description := none, price := none,
        category := none, is_active := true, created_at := 0,
        updated_at := 5 } rfl
      [{ id := 1, name := "N", description := none, price := 10,
         in_stock := true, created_at := 3, updated_at := 3 }] 1 9
      { id := 1, name := "N", description := none, price := 10,
        in_stock := true, created_at := 3, updated_at := 3 } rfl).1

/-- C9 counterexample: in `main26.py` an empty patch on an existing
product is not rejected — it succeeds and refreshes `updated_at` (from
3 to 9 here), contradicting both the `ValidationError` and the
record-unchanged parts of the claim. -/
theorem C9_counterexample :
    (Main26.update_product 9 1 {}
        [{ id := 1, name := "N", description := none, price := 10,
           in_stock := true, created_at := 3, updated_at := 3 }]).2 =
      Except.ok { id := 1, name := "N", description := none, price := 10,
                  in_stock := true, created_at := 3, updated_at := 9 } ∧
    (Main26.update_product 9 1 {}
        [{ id := 1, name := "N", description := none, price := 10,
           in_stock := true, created_at := 3, updated_at := 3 }]).1 =
      [{ id := 1, name := "N", description := none, price := 10,
         in_stock := true, created_at := 3, updated_at := 9 }] := by
  exact ⟨rfl, rfl⟩
